import Mathlib

set_option maxRecDepth 40000

/-!
Verification of the Modbus/solar client core of huawei-solar-mqtt-relay.

The Go source is shallowly embedded: byte slices become `List Nat` (each
element a byte value), fallible functions return `Except GoErr`, Go panics
are modelled by dedicated error/`panic` constructors, `float64` arithmetic
is idealised as exact rational arithmetic (`Rat`), and machine-integer
conversions are made explicit with `%` / signed reinterpretation.
Network effects (`FunctionCall` on the multiplexed connection) are an
explicit environment `FnEnv`; each modelled operation also returns the
list of function calls it handed to the send path, so "nothing was sent"
is a provable statement.
-/

/-- Byte strings: each element is a byte value (0..255). -/
abbrev Bytes := List Nat

/-- Error outcomes of the embedded Go functions. Each constructor stands for
one distinct `fmt.Errorf`/panic site in the source; `panic`-tagged
constructors model Go runtime panics, which are not ordinary returned
errors. -/
inductive GoErr where
  | quantityOutOfRange
  | callFailed
  | emptyResponse
  | countMismatch
  | payloadSizeMismatch
  | tooManyRegisters
  | invalidScalarTag
  | invalidAddrTag
  | invalidStrLenTag
  | fieldReadFailed (inner : GoErr)
  | panicUnknownNumName
  | unsupportedFieldKind
  | shortRead
  | invalidInitRespLength (len : Nat)
deriving DecidableEq, Repr

/-- Big-endian encoding of a `uint16` value, as produced by
`binary.Write(&buff, binary.BigEndian, v)` in Go. -/
def beBytes2 (n : Nat) : Bytes := [n % 65536 / 256, n % 256]

/-- Big-endian decode of a byte list into a natural number, as
`binary.BigEndian.Uint16/Uint32` and `binary.Decode` do for unsigned types. -/
def beNat (b : Bytes) : Nat := b.foldl (fun acc x => acc * 256 + x) 0

/-- Reinterpret an unsigned `w`-bit value as two's-complement signed, the
effect of Go conversions such as `int16(binary.BigEndian.Uint16(b))`. -/
def toSigned (w : Nat) (n : Nat) : Int :=
  if n % 2 ^ w < 2 ^ (w - 1) then (n % 2 ^ w : Int) else (n % 2 ^ w : Int) - 2 ^ w

/-- Go conversion from `float64` to an integer type truncates toward zero;
this is that truncation on the idealised rational value. -/
def truncQ (q : Rat) : Int := if 0 ≤ q then ⌊q⌋ else -⌊-q⌋

instance {e a : Type} [DecidableEq e] [DecidableEq a] : DecidableEq (Except e a) := by
  intro x y
  cases x <;> cases y
  case error.error u v =>
    exact if h : u = v then .isTrue (by rw [h]) else .isFalse (by intro hh; injection hh; exact h (by assumption))
  case error.ok u v => exact .isFalse (by intro hh; exact Except.noConfusion hh)
  case ok.error u v => exact .isFalse (by intro hh; exact Except.noConfusion hh)
  case ok.ok u v =>
    exact if h : u = v then .isTrue (by rw [h]) else .isFalse (by intro hh; injection hh; exact h (by assumption))

/-- Environment for the embedded client: the behaviour of
`ModbusConn.FunctionCall` (function code and request data to response
`Data`, or a transport/context error), plus the meaning of IEEE-754
register payloads for the (unused by the deployed schema) float wire
types. -/
structure FnEnv where
  call : Nat → Bytes → Except Unit Bytes
  ieee32 : Nat → Rat
  ieee64 : Nat → Rat

/-- Result of one modelled client operation: the function calls it handed
to the connection's send path, in order, and its returned value. -/
structure RHRRun where
  requests : List (Nat × Bytes)
  result : Except GoErr Bytes
deriving DecidableEq

/-- Embedding of `(*ModbusConn).ReadHoldingRegistersU16`
(src/internal/modbus/client_registers.go lines 35-66): validate the
quantity, issue function code 0x03 with big-endian address and quantity,
then validate the response byte count against the declared count byte. -/
def ReadHoldingRegistersU16 (env : FnEnv) (address quantity : Nat) : RHRRun :=
  if quantity < 1 ∨ quantity > 125 then ⟨[], .error .quantityOutOfRange⟩
  else
    let req := beBytes2 address ++ beBytes2 quantity
    match env.call 3 req with
    | .error _ => ⟨[(3, req)], .error .callFailed⟩
    | .ok respData =>
      ⟨[(3, req)],
        if respData.length = 0 then .error .emptyResponse
        else
          let count := respData.headD 0
          if count ≠ quantity * 2 then .error .countMismatch
          else
            let values := respData.tail
            if count ≠ values.length then .error .payloadSizeMismatch
            else .ok values⟩

/-- Fixed sample environment: every function call answers with response
data `[2, 0, 100]`, i.e. byte count 2 and one register holding 100. -/
def sampleEnv : FnEnv := ⟨fun _ _ => .ok [2, 0, 100], fun _ => 0, fun _ => 0⟩

/-- A response ADU as seen by the dispatch loop: the correlation key
(`TransactionID`) plus the rest of the message, kept as raw bytes. -/
structure Packet where
  transactionID : Nat
  body : Bytes
deriving DecidableEq

/-- The correlation table `waiters map[uint16]chan *ModbusTCPADU`,
transaction id to the identifier of the waiting caller's channel. -/
def Waiters := Nat → Option Nat

/-- One iteration of `(*ModbusConn).fanout`
(src/internal/modbus/client.go lines 104-127): under the lock, look up the
packet's transaction id, delete the entry, and deliver the packet to the
found channel; with no entry the packet is dropped (empty delivery list). -/
def fanoutStep (w : Waiters) (p : Packet) : Waiters × List (Nat × Packet) :=
  let w2 : Waiters := fun t => if t = p.transactionID then none else w t
  match w p.transactionID with
  | none => (w2, [])
  | some ch => (w2, [(ch, p)])

/-- The dispatch loop processing a finite sequence of inbound packets in
arrival order, accumulating the (channel, packet) deliveries it makes. -/
def fanout : Waiters → List Packet → Waiters × List (Nat × Packet)
  | w, [] => (w, [])
  | w, p :: rest =>
    let s := fanoutStep w p
    let r := fanout s.1 rest
    (r.1, s.2 ++ r.2)

/-- One vendor device-info object: a `(id, length, data)` triple plus the
`key=value` property map derived from `data` (kept as the association list
in split order; Go's `map[string]string` is its last-binding-per-key view). -/
structure InfoObj where
  id : Nat
  data : Bytes
  dataMap : List (Bytes × Bytes)
deriving DecidableEq

/-- Embedding of `strings.Cut(prop, "=")` as used on an object's data:
the bytes before the first `=` (byte 61) and the bytes after it; with no
`=` the whole input and the empty string. -/
def cutEq (prop : Bytes) : Bytes × Bytes :=
  let i := prop.findIdx (fun b => b == 61)
  (prop.take i, prop.drop (i + 1))

/-- The property map built for one object
(src/internal/solar/client.go lines 89-96): only when the data contains an
`=` is it split on `;` (byte 59) and each part cut at its first `=`. -/
def buildDataMap (data : Bytes) : List (Bytes × Bytes) :=
  if data.contains 61 then (data.splitOn 59).map cutEq else []

/-- The object-list cursor loop of `QueryDeviceInfos`
(src/internal/solar/client.go lines 71-105), with explicit fuel so that it
is structural: read `(id, length)` at the cursor, stop when fewer than two
bytes remain or the declared length exceeds the remaining bytes, otherwise
take the object and advance the cursor by `2 + length`. -/
def parseObjsFuel : Nat → Bytes → List InfoObj
  | 0, _ => []
  | fuel + 1, cursor =>
    if cursor.length < 2 then []
    else
      let objId := cursor.headD 0
      let objLen := (cursor.drop 1).headD 0
      if cursor.length - 2 < objLen then []
      else
        let data := (cursor.drop 2).take objLen
        let obj : InfoObj := ⟨objId, data, buildDataMap data⟩
        if cursor.length > objLen + 2 then
          obj :: parseObjsFuel fuel (cursor.drop (2 + objLen))
        else [obj]

/-- The cursor loop run on a buffer; every iteration consumes at least two
bytes, so the buffer's length is always enough fuel. -/
def parseObjs (cursor : Bytes) : List InfoObj := parseObjsFuel cursor.length cursor

/-- Outcome of `(*Client).QueryDeviceInfos`: the function itself only logs,
so the observable outcome is which path it took. `panicked` stands for a Go
runtime index-out-of-range panic. -/
inductive QDIResult where
  | callError
  | tooShort (len : Nat)
  | panicked
  | ok (deviceIdCode consistencyLevel more nextObjId numObjects : Nat)
       (objs : List InfoObj)
deriving DecidableEq

/-- Embedding of `(*Client).QueryDeviceInfos`
(src/internal/solar/client.go lines 27-112) applied to the response of the
0x2B call: reject responses shorter than 5 data bytes, then read the
summary fields `resp.Data[1]` .. `resp.Data[5]` — where an access past the
end of the buffer is a runtime panic — and parse the object list from
`resp.Data[6:]`. -/
def QueryDeviceInfos (resp : Except Unit Bytes) : QDIResult :=
  match resp with
  | .error _ => .callError
  | .ok data =>
    if data.length < 5 then .tooShort data.length
    else
      match data.get? 1, data.get? 2, data.get? 3, data.get? 4, data.get? 5 with
      | some deviceIdCode, some consistencyLevel, some more, some nextObjId,
        some numObjects =>
        .ok deviceIdCode consistencyLevel more nextObjId numObjects
          (parseObjs (data.drop 6))
      | _, _, _, _, _ => .panicked

/-- Word arithmetic of SHA-256: reduce to 32 bits. -/
def w32 (n : Nat) : Nat := n % 4294967296

/-- 32-bit modular addition. -/
def add32 (a b : Nat) : Nat := (a + b) % 4294967296

/-- 32-bit right rotation (input assumed below 2^32). -/
def rotr32 (x n : Nat) : Nat := w32 ((x >>> n) ||| (x <<< (32 - n)))

/-- SHA-256 message-schedule sigma-0. -/
def ssig0 (x : Nat) : Nat := (rotr32 x 7) ^^^ (rotr32 x 18) ^^^ (x >>> 3)

/-- SHA-256 message-schedule sigma-1. -/
def ssig1 (x : Nat) : Nat := (rotr32 x 17) ^^^ (rotr32 x 19) ^^^ (x >>> 10)

/-- SHA-256 round function Sigma-0. -/
def bsig0 (x : Nat) : Nat := (rotr32 x 2) ^^^ (rotr32 x 13) ^^^ (rotr32 x 22)

/-- SHA-256 round function Sigma-1. -/
def bsig1 (x : Nat) : Nat := (rotr32 x 6) ^^^ (rotr32 x 11) ^^^ (rotr32 x 25)

/-- The 64 SHA-256 round constants. -/
def sha256K : List Nat := [
  1116352408, 1899447441, 3049323471, 3921009573, 961987163, 1508970993, 2453635748, 2870763221,
  3624381080, 310598401, 607225278, 1426881987, 1925078388, 2162078206, 2614888103, 3248222580,
  3835390401, 4022224774, 264347078, 604807628, 770255983, 1249150122, 1555081692, 1996064986,
  2554220882, 2821834349, 2952996808, 3210313671, 3336571891, 3584528711, 113926993, 338241895,
  666307205, 773529912, 1294757372, 1396182291, 1695183700, 1986661051, 2177026350, 2456956037,
  2730485921, 2820302411, 3259730800, 3345764771, 3516065817, 3600352804, 4094571909, 275423344,
  430227734, 506948616, 659060556, 883997877, 958139571, 1322822218, 1537002063, 1747873779,
  1955562222, 2024104815, 2227730452, 2361852424, 2428436474, 2756734187, 3204031479, 3329325298]

/-- The SHA-256 initial hash state. -/
def sha256H0 : List Nat :=
  [1779033703, 3144134277, 1013904242, 2773480762, 1359893119, 2600822924, 528734635, 1541459225]

/-- Big-endian 64-bit encoding, for the SHA-256 length suffix. -/
def beBytes8 (n : Nat) : Bytes :=
  [n / 72057594037927936 % 256, n / 281474976710656 % 256, n / 1099511627776 % 256,
   n / 4294967296 % 256, n / 16777216 % 256, n / 65536 % 256, n / 256 % 256, n % 256]

/-- SHA-256 padding: a 0x80 byte, zeros to 56 mod 64, then the bit length. -/
def sha256Pad (msg : Bytes) : Bytes :=
  msg ++ [128] ++ List.replicate ((119 - msg.length % 64) % 64) 0 ++ beBytes8 (8 * msg.length)

/-- Group bytes into big-endian 32-bit words. -/
def toWords : Bytes → List Nat
  | a :: b :: c :: d :: rest => (((a * 256 + b) * 256 + c) * 256 + d) :: toWords rest
  | _ => []

/-- Split a word list into 16-word blocks (fuelled to stay structural). -/
def chunks16Fuel : Nat → List Nat → List (List Nat)
  | 0, _ => []
  | _, [] => []
  | fuel + 1, ws => ws.take 16 :: chunks16Fuel fuel (ws.drop 16)

/-- Extend a 16-word block to the 64-word SHA-256 message schedule. -/
def sha256Schedule (block : List Nat) : List Nat :=
  (List.range 48).foldl (fun w i =>
    w ++ [add32 (add32 (ssig1 (w.getD (i + 14) 0)) (w.getD (i + 9) 0))
               (add32 (ssig0 (w.getD (i + 1) 0)) (w.getD i 0))]) block

/-- One SHA-256 compression of a 16-word block into the running state. -/
def sha256Compress (h : List Nat) (block : List Nat) : List Nat :=
  let w := sha256Schedule block
  let fin := (List.range 64).foldl (fun st t =>
    match st with
    | (a, b, c, d, e, f, g, hh) =>
      let ch := (e &&& f) ^^^ ((4294967295 ^^^ e) &&& g)
      let maj := (a &&& b) ^^^ (a &&& c) ^^^ (b &&& c)
      let t1 := add32 (add32 (add32 hh (bsig1 e)) (add32 ch (sha256K.getD t 0))) (w.getD t 0)
      let t2 := add32 (bsig0 a) maj
      (add32 t1 t2, a, b, c, add32 d t1, e, f, g))
    (h.getD 0 0, h.getD 1 0, h.getD 2 0, h.getD 3 0,
     h.getD 4 0, h.getD 5 0, h.getD 6 0, h.getD 7 0)
  match fin with
  | (a, b, c, d, e, f, g, hh) =>
    List.zipWith add32 h [a, b, c, d, e, f, g, hh]

/-- SHA-256 of a byte string, the embedding of Go's `crypto/sha256`. -/
def sha256 (msg : Bytes) : Bytes :=
  let words := toWords (sha256Pad msg)
  let final := (chunks16Fuel words.length words).foldl sha256Compress sha256H0
  (final.map (fun wd => [wd / 16777216 % 256, wd / 65536 % 256, wd / 256 % 256, wd % 256])).flatten

/-- HMAC-SHA256, the embedding of Go's `crypto/hmac` over `sha256.New`
(block size 64): hash an over-long key, zero-pad to the block size, then
digest `opad-key ++ H(ipad-key ++ message)`. -/
def hmacSha256 (key msg : Bytes) : Bytes :=
  let k1 := if key.length > 64 then sha256 key else key
  let k2 := k1 ++ List.replicate (64 - k1.length) 0
  sha256 ((k2.map (fun b => b ^^^ 92)) ++ sha256 ((k2.map (fun b => b ^^^ 54)) ++ msg))

/-- Embedding of `loginHash` (src/internal/solar/login.go lines 14-19):
key is the SHA-256 of the password, message is the server challenge. -/
def loginHash (password challenge : Bytes) : Bytes :=
  let k := sha256 password
  hmacSha256 k challenge

/-- The fixed login-init request data `{0x24, 1, 0}`. -/
def loginInitRequestData : Bytes := [36, 1, 0]

/-- The second login request's data
(src/internal/solar/login.go lines 38-65): subcommand 0x25, a total-length
byte, the fixed 16-byte placeholder client challenge, then length-prefixed
username and challenge response (`byte(...)` truncates to 8 bits). -/
def buildPartTwoData (username challResp : Bytes) : Bytes :=
  [37, (16 + 1 + username.length + 1 + challResp.length) % 256,
   41, 42, 43, 44, 45, 46, 47, 48, 41, 42, 43, 44, 45, 46, 47, 48]
  ++ [username.length % 256] ++ username ++ [challResp.length % 256] ++ challResp

/-- Embedding of `(*Client).Login` (src/internal/solar/login.go lines
67-102): run login-init, require at least 18 response data bytes, take
bytes [2:18) as the challenge, send the challenge response, and return
success whenever that call succeeds — the final response's result code is
logged but never examined. -/
def Login (env : FnEnv) (username password : Bytes) : Except GoErr Unit :=
  match env.call 65 loginInitRequestData with
  | .error _ => .error .callFailed
  | .ok d =>
    if d.length < 18 then .error (.invalidInitRespLength d.length)
    else
      let firstChallenge := (d.drop 2).take 16
      let challResponse := loginHash password firstChallenge
      match env.call 65 (buildPartTwoData username challResponse) with
      | .error _ => .error .callFailed
      | .ok _ => .ok ()

/-- Environment whose final login response carries result code 6, which
the source's own comments record as "incorrect password". -/
def loginFailCodeEnv : FnEnv :=
  ⟨fun _ data => if data = loginInitRequestData then .ok (List.replicate 18 0)
                 else .ok [37, 36, 1, 32, 6, 55],
   fun _ => 0, fun _ => 0⟩

/-- Digit-string parse shared by the `strconv` embeddings: nonempty
decimal digits to their value. -/
def parseDigits (s : Bytes) : Option Nat :=
  if s = [] ∨ ¬ (s.all (fun b => 48 ≤ b && b ≤ 57)) then none
  else some (s.foldl (fun acc b => acc * 10 + (b - 48)) 0)

/-- Embedding of `strconv.ParseUint(s, 10, 16)`: decimal digits only,
error on overflow past 16 bits. -/
def parseUint16 (s : Bytes) : Option Nat :=
  match parseDigits s with
  | none => none
  | some v => if v < 65536 then some v else none

/-- Embedding of `strconv.ParseInt(s, 10, 16)`: an optional sign, then
digits, range-checked to the signed 16-bit interval. -/
def parseInt16 (s : Bytes) : Option Int :=
  match s with
  | 45 :: rest =>
    (parseDigits rest).bind (fun v => if v ≤ 32768 then some (-(v : Int)) else none)
  | 43 :: rest =>
    (parseDigits rest).bind (fun v => if v ≤ 32767 then some ((v : Int)) else none)
  | _ =>
    (parseDigits s).bind (fun v => if v ≤ 32767 then some ((v : Int)) else none)

/-- Embedding of `strconv.ParseFloat` for the `modbus_scalar` tag,
restricted to the plain unsigned decimal forms the tags use
("1", "10", "0.5", ...); the `float64` result is idealised as the exact
rational the decimal denotes. -/
def parseScalarQ (s : Bytes) : Option Rat :=
  match s.splitOn 46 with
  | [ip] => (parseDigits ip).map (fun v => (v : Rat))
  | [ip, fp] =>
    match parseDigits ip, parseDigits fp with
    | some a, some b => some ((a : Rat) + (b : Rat) / ((10 : Rat) ^ fp.length))
    | _, _ => none
  | _ => none

/-- The numeric wire types `anyNumByName` can allocate
(src/internal/modbus/client_registers.go lines 243-267). -/
inductive NumType where
  | i8 | u8 | i16 | u16 | i32 | u32 | i64 | u64 | f32 | f64
deriving DecidableEq

/-- Embedding of `sizeOf[T]` / `intDataSize`: byte width of each type. -/
def numTypeSize : NumType → Nat
  | .i8 | .u8 => 1
  | .i16 | .u16 => 2
  | .i32 | .u32 | .f32 => 4
  | .i64 | .u64 | .f64 => 8

/-- Embedding of `anyNumByName`: the `modbus_type` tag (or Go type name)
to the allocated numeric type; an unknown name is a Go panic (`none`). -/
def numTypeByName (name : Bytes) : Option NumType :=
  if name = [105, 110, 116, 56] ∨ name = [105, 56] then some .i8
  else if name = [117, 105, 110, 116, 56] ∨ name = [117, 56] then some .u8
  else if name = [105, 110, 116, 49, 54] ∨ name = [105, 49, 54] then some .i16
  else if name = [117, 105, 110, 116, 49, 54] ∨ name = [117, 49, 54] then some .u16
  else if name = [105, 110, 116, 51, 50] ∨ name = [105, 51, 50] then some .i32
  else if name = [117, 105, 110, 116, 51, 50] ∨ name = [117, 51, 50] then some .u32
  else if name = [105, 110, 116, 54, 52] ∨ name = [105, 54, 52] then some .i64
  else if name = [117, 105, 110, 116, 54, 52] ∨ name = [117, 54, 52] then some .u64
  else if name = [102, 108, 111, 97, 116, 51, 50] ∨ name = [102, 51, 50] then some .f32
  else if name = [102, 108, 111, 97, 116, 54, 52] ∨ name = [102, 54, 52] then some .f64
  else none

/-- A value held in one of the allocated numeric cells. -/
inductive NumVal where
  | ofInt (v : Int)
  | ofUint (v : Nat)
  | ofFloat (q : Rat)
deriving DecidableEq

/-- Embedding of `binary.Decode(..., binary.BigEndian, &results[i])` on the
first `sizeOf[T]` response bytes: big-endian, signed types reinterpreted in
two's complement, float bit patterns given meaning by the environment. -/
def decodeNum (env : FnEnv) (t : NumType) (b : Bytes) : NumVal :=
  match t with
  | .i8 => .ofInt (toSigned 8 (beNat (b.take 1)))
  | .u8 => .ofUint (beNat (b.take 1))
  | .i16 => .ofInt (toSigned 16 (beNat (b.take 2)))
  | .u16 => .ofUint (beNat (b.take 2))
  | .i32 => .ofInt (toSigned 32 (beNat (b.take 4)))
  | .u32 => .ofUint (beNat (b.take 4))
  | .i64 => .ofInt (toSigned 64 (beNat (b.take 8)))
  | .u64 => .ofUint (beNat (b.take 8))
  | .f32 => .ofFloat (env.ieee32 (beNat (b.take 4)))
  | .f64 => .ofFloat (env.ieee64 (beNat (b.take 8)))

/-- Embedding of `ReadHoldingRegisters[T]` at `quantityT = 1`
(src/internal/modbus/client_registers.go lines 68-90), the path taken by
`ReadHoldingRegisterP`/`ReadHoldingRegisterAny`: round the byte width up
to whole registers, read, decode the first value. -/
def ReadHoldingRegisterNum (env : FnEnv) (t : NumType) (address : Nat) :
    List (Nat × Bytes) × Except GoErr NumVal :=
  let q := (numTypeSize t + 1) / 2
  if q > 125 then ([], .error .tooManyRegisters)
  else
    let run := ReadHoldingRegistersU16 env address q
    (run.requests,
      match run.result with
      | .error e => .error e
      | .ok bytes => .ok (decodeNum env t bytes))

/-- Embedding of `ReadHoldingRegisters[byte]` at an arbitrary `quantityT`
(the instantiation `ReadHoldingRegisterString` uses): each decoded value
is one byte, so the result is the first `quantityT` response bytes. -/
def ReadHoldingRegisterBytes (env : FnEnv) (address quantityT : Nat) :
    List (Nat × Bytes) × Except GoErr Bytes :=
  let q := (quantityT * 1 + 1) / 2
  if q > 125 then ([], .error .tooManyRegisters)
  else
    let run := ReadHoldingRegistersU16 env address q
    (run.requests,
      match run.result with
      | .error e => .error e
      | .ok bytes => .ok (bytes.take quantityT))

/-- Embedding of `strings.TrimRight(s, "\x00")`: drop every trailing NUL. -/
def trimTrailingZeros (s : Bytes) : Bytes :=
  (s.reverse.dropWhile (fun b => b == 0)).reverse

/-- Embedding of `ReadHoldingRegisterString`
(src/internal/modbus/client_registers.go lines 108-116): read `size + 1`
byte values (one extra for a NUL terminator), keep the first `size`, and
trim trailing NULs. -/
def ReadHoldingRegisterString (env : FnEnv) (address size : Nat) :
    List (Nat × Bytes) × Except GoErr Bytes :=
  let r := ReadHoldingRegisterBytes env address (size + 1)
  (r.1,
    match r.2 with
    | .error e => .error e
    | .ok res => .ok (trimTrailingZeros (res.take size)))

/-- Go conversion of an `int64` out-of-range intermediate back into the
64-bit window (two's-complement wraparound). -/
def intWrap64 (v : Int) : Int := toSigned 64 ((v % 18446744073709551616).toNat)

/-- Embedding of `castAnyNumTo[int64]`: Go conversions to `int64`
(floats truncate toward zero; conversions wrap modulo 2^64). -/
def castNumToInt64 : NumVal → Int
  | .ofInt v => intWrap64 v
  | .ofUint v => toSigned 64 (v % 18446744073709551616)
  | .ofFloat q => truncQ q

/-- Embedding of `castAnyNumTo[uint64]`. -/
def castNumToUint64 : NumVal → Nat
  | .ofInt v => (v % 18446744073709551616).toNat
  | .ofUint v => v % 18446744073709551616
  | .ofFloat q => (truncQ q).toNat

/-- Embedding of `castAnyNumTo[float64]`, idealised as exact rationals. -/
def castNumToQ : NumVal → Rat
  | .ofInt v => (v : Rat)
  | .ofUint v => (v : Rat)
  | .ofFloat q => q

/-- The reflect-level class of a struct field's Go type
(`field.Type().Kind()` / `CanInt` / `CanFloat` / `CanUint`). -/
inductive FieldKind where
  | str | int | uint | float | other
deriving DecidableEq

/-- A struct field's runtime value. -/
inductive FieldVal where
  | vStr (s : Bytes)
  | vInt (n : Int)
  | vUint (n : Nat)
  | vFloat (q : Rat)
  | vOther (o : Nat)
deriving DecidableEq

/-- One struct field as `QueryStructRegisters` sees it through reflection:
its kind, current value, Go type name, and the raw struct-tag strings
(`reflect.StructTag.Get` yields the empty string for an absent tag). -/
structure StructField where
  kind : FieldKind
  val : FieldVal
  typeName : Bytes
  tagAddr : Bytes
  tagScalar : Bytes
  tagType : Bytes
  tagStrLen : Bytes
deriving DecidableEq

/-- The body of the `QueryStructRegisters` field loop
(src/internal/modbus/client_registers.go lines 148-211) for one field: an
empty `modbus_addr` tag skips the field; otherwise the scalar tag
(default "1") is parsed and inverted, the address parsed, and the field
read and written back — strings via the string read, numerics via the
`modbus_type`-named cell, scaled by `int64(scalar)` / `scalar` /
`uint64(scalar)` according to the field's kind. -/
def processField (env : FnEnv) (f : StructField) : Except GoErr StructField :=
  if f.tagAddr = [] then .ok f
  else
    let scalarStr := if f.tagScalar = [] then [49] else f.tagScalar
    match parseScalarQ scalarStr with
    | none => .error .invalidScalarTag
    | some scalar0 =>
      let scalar := 1 / scalar0
      let outputType := if f.tagType = [] then f.typeName else f.tagType
      match parseUint16 f.tagAddr with
      | none => .error .invalidAddrTag
      | some addr =>
        match f.kind with
        | .str =>
          match parseInt16 f.tagStrLen with
          | none => .error .invalidStrLenTag
          | some strLen =>
            if strLen = 0 then .error .invalidStrLenTag
            else
              match (ReadHoldingRegisterString env addr ((strLen % 65536).toNat)).2 with
              | .error e => .error (.fieldReadFailed e)
              | .ok sOut => .ok { f with val := .vStr sOut }
        | _ =>
          match numTypeByName outputType with
          | none => .error .panicUnknownNumName
          | some nt =>
            match (ReadHoldingRegisterNum env nt addr).2 with
            | .error e => .error (.fieldReadFailed e)
            | .ok num =>
              match f.kind with
              | .int =>
                .ok { f with val := .vInt (intWrap64 (castNumToInt64 num * truncQ scalar)) }
              | .float =>
                .ok { f with val := .vFloat (castNumToQ num * scalar) }
              | .uint =>
                let u := castNumToUint64 num * (truncQ scalar).toNat % 18446744073709551616
                .ok { f with val := .vUint u }
              | _ => .error .unsupportedFieldKind

/-- Embedding of `(*ModbusConn).QueryStructRegisters`
(src/internal/modbus/client_registers.go lines 144-215): process the
fields in order, aborting on the first error. (Go mutates the record in
place; on success every field holds its processed value, which is what the
returned list models.) -/
def QueryStructRegisters (env : FnEnv) : List StructField → Except GoErr (List StructField)
  | [] => .ok []
  | f :: rest =>
    match processField env f with
    | .error e => .error e
    | .ok f2 =>
      match QueryStructRegisters env rest with
      | .error e => .error e
      | .ok rest2 => .ok (f2 :: rest2)

/-- Embedding of `(*Client).readU16` (src/unnamed/part_000 lines 164-173)
over the response bytes of the underlying register read. -/
def readU16 (resp : Except Unit Bytes) : Except GoErr Nat :=
  match resp with
  | .error _ => .error .callFailed
  | .ok b => if b.length < 2 then .error .shortRead else .ok (beNat (b.take 2))

/-- Embedding of `(*Client).readU16Scaled` (src/unnamed/part_000 lines
175-181): the unsigned 16-bit register value divided by the gain. -/
def readU16Scaled (resp : Except Unit Bytes) (gain : Nat) : Except GoErr Rat :=
  match readU16 resp with
  | .error e => .error e
  | .ok v => .ok ((v : Rat) / (gain : Rat))

/-- Embedding of `(*Client).readI16Scaled` (src/unnamed/part_000 lines
183-193): the signed 16-bit register value divided by the gain. -/
def readI16Scaled (resp : Except Unit Bytes) (gain : Nat) : Except GoErr Rat :=
  match resp with
  | .error _ => .error .callFailed
  | .ok b =>
    if b.length < 2 then .error .shortRead
    else .ok (((toSigned 16 (beNat (b.take 2))) : Rat) / (gain : Rat))

/-- Embedding of `(*Client).readI32Scaled` (src/unnamed/part_000 lines
195-205): the signed 32-bit value of two registers divided by the gain. -/
def readI32Scaled (resp : Except Unit Bytes) (gain : Nat) : Except GoErr Rat :=
  match resp with
  | .error _ => .error .callFailed
  | .ok b =>
    if b.length < 4 then .error .shortRead
    else .ok (((toSigned 32 (beNat (b.take 4))) : Rat) / (gain : Rat))

/-- Embedding of `(*Client).readU32Scaled` (src/unnamed/part_000 lines
207-217): the unsigned 32-bit value of two registers divided by the gain. -/
def readU32Scaled (resp : Except Unit Bytes) (gain : Nat) : Except GoErr Rat :=
  match resp with
  | .error _ => .error .callFailed
  | .ok b =>
    if b.length < 4 then .error .shortRead
    else .ok (((beNat (b.take 4) : Nat) : Rat) / (gain : Rat))

/-- Embedding of `(*Client).readString` (src/unnamed/part_000 lines
219-228): all returned register bytes with trailing NULs removed. -/
def readString (resp : Except Unit Bytes) : Except GoErr Bytes :=
  match resp with
  | .error _ => .error .callFailed
  | .ok b => .ok (trimTrailingZeros b)

/-- Sample schema entry: an integer-typed output field (Go `int64`) with
`modbus_addr:"100" modbus_scalar:"10" modbus_type:"i16"`. -/
def intScaledField : StructField :=
  ⟨.int, .vInt 0, [105, 110, 116, 54, 52], [49, 48, 48], [49, 48], [105, 49, 54], []⟩

/-- Sample schema entry mirroring the `InternalTemperature` field:
`float64` with `modbus_addr:"32087" modbus_scalar:"10" modbus_type:"i16"`. -/
def floatScaledField : StructField :=
  ⟨.float, .vFloat 0, [102, 108, 111, 97, 116, 54, 52], [51, 50, 48, 56, 55], [49, 48],
   [105, 49, 54], []⟩

/-- Sample untagged field mirroring `Timestamp`: no `modbus_addr` tag. -/
def tsField : StructField := ⟨.other, .vOther 0, [84, 105, 109, 101], [], [], [], []⟩

/-- Environment answering every register read with byte count 2 and the
register bytes `{65, 0}` (the letter A followed by a NUL). -/
def strEnv : FnEnv := ⟨fun _ _ => .ok [2, 65, 0], fun _ => 0, fun _ => 0⟩

-- ===== Theorems =====

/-- Claim C6: for every quantity outside 1..125, `ReadHoldingRegistersU16`
returns an error without issuing any function call: the request log is
empty and the result is the local range error. -/
theorem readHoldingRegistersU16_rejects_out_of_range
    (env : FnEnv) (address quantity : Nat)
    (h : quantity < 1 ∨ quantity > 125) :
    (ReadHoldingRegistersU16 env address quantity).requests = [] ∧
    (ReadHoldingRegistersU16 env address quantity).result =
      .error .quantityOutOfRange := by
  rw [ReadHoldingRegistersU16, if_pos h]
  exact ⟨rfl, rfl⟩

/-- Witness for claim C6 at quantity 200: the scenario input is rejected
locally with nothing handed to the send path. -/
theorem readHoldingRegistersU16_rejects_out_of_range_witness :
    ((200 : Nat) < 1 ∨ (200 : Nat) > 125) ∧
    ((ReadHoldingRegistersU16 sampleEnv 32087 200).requests = [] ∧
     (ReadHoldingRegistersU16 sampleEnv 32087 200).result =
       .error .quantityOutOfRange) :=
  ⟨by decide,
   readHoldingRegistersU16_rejects_out_of_range sampleEnv 32087 200 (by decide)⟩

/-- Claim C7: whenever `ReadHoldingRegistersU16` succeeds for quantity `q`,
the first byte of the response data the environment produced equals
exactly `2*q`; in particular an empty response can never lead to success. -/
theorem readHoldingRegistersU16_first_byte_is_count
    (env : FnEnv) (address quantity : Nat) (vals : Bytes)
    (hok : (ReadHoldingRegistersU16 env address quantity).result = .ok vals)
    (respData : Bytes)
    (hcall : env.call 3 (beBytes2 address ++ beBytes2 quantity) = .ok respData) :
    respData.head? = some (quantity * 2) := by
  simp only [ReadHoldingRegistersU16] at hok
  split at hok
  · exact absurd hok (by simp)
  · rw [hcall] at hok
    simp only at hok
    split at hok
    · exact absurd hok (by simp)
    · rename_i hne
      split at hok
      · exact absurd hok (by simp)
      · rename_i hcount
        cases respData with
        | nil => simp at hne
        | cons b rest =>
          simp only [List.headD_cons, ne_eq, not_not] at hcount
          simp only [List.head?_cons, hcount]

/-- Witness for claim C7: the sample environment answers `[2, 0, 100]` for
a one-register read, and indeed its first byte is `2 = 1 * 2`. -/
theorem readHoldingRegistersU16_first_byte_is_count_witness :
    (ReadHoldingRegistersU16 sampleEnv 32087 1).result = .ok [0, 100] ∧
    sampleEnv.call 3 (beBytes2 32087 ++ beBytes2 1) = .ok [2, 0, 100] ∧
    ([2, 0, 100] : Bytes).head? = some (1 * 2) :=
  ⟨by decide, by decide,
   readHoldingRegistersU16_first_byte_is_count sampleEnv 32087 1 [0, 100]
     (by decide) [2, 0, 100] (by decide)⟩

/-- Claim C10: whenever `ReadHoldingRegistersU16` succeeds for quantity `q`,
the returned byte slice has length exactly `2*q`. -/
theorem readHoldingRegistersU16_ok_length
    (env : FnEnv) (address quantity : Nat) (vals : Bytes)
    (hok : (ReadHoldingRegistersU16 env address quantity).result = .ok vals) :
    vals.length = 2 * quantity := by
  simp only [ReadHoldingRegistersU16] at hok
  split at hok
  · exact absurd hok (by simp)
  · rename_i hrange
    cases hcall : env.call 3 (beBytes2 address ++ beBytes2 quantity) with
    | error e => rw [hcall] at hok; exact absurd hok (by simp)
    | ok respData =>
      rw [hcall] at hok
      simp only at hok
      split at hok
      · exact absurd hok (by simp)
      · split at hok
        · exact absurd hok (by simp)
        · rename_i hcount
          split at hok
          · exact absurd hok (by simp)
          · rename_i hlen
            simp only [Except.ok.injEq] at hok
            subst hok
            omega

/-- Witness for claim C10: a successful one-register read returns exactly
two bytes. -/
theorem readHoldingRegistersU16_ok_length_witness :
    (ReadHoldingRegistersU16 sampleEnv 32087 1).result = .ok [0, 100] ∧
    ([0, 100] : Bytes).length = 2 * 1 :=
  ⟨by decide,
   readHoldingRegistersU16_ok_length sampleEnv 32087 1 [0, 100] (by decide)⟩

/-- Once a transaction id has no correlation entry, the dispatch loop never
delivers a packet carrying that id (it is silently dropped). -/
theorem fanout_no_waiter_no_delivery (ps : List Packet) :
    ∀ (w : Waiters) (t : Nat), w t = none →
    ((fanout w ps).2.countP (fun d => decide (d.2.transactionID = t))) = 0 := by
  induction ps with
  | nil => intro w t h; simp [fanout]
  | cons p rest ih =>
    intro w t h
    cases hw : w p.transactionID with
    | none =>
      simp only [fanout, fanoutStep, hw, List.nil_append]
      exact ih _ t (by by_cases hx : t = p.transactionID <;> simp [hx, h])
    | some ch =>
      have hne : ¬(p.transactionID = t) := by
        intro he; rw [he, h] at hw; exact Option.noConfusion hw
      simp only [fanout, fanoutStep, hw, List.singleton_append, List.countP_cons]
      simp only [decide_eq_false hne, Bool.false_eq_true, if_false, add_zero]
      exact ih _ t (by by_cases hx : t = p.transactionID <;> simp [hx, h])

/-- Claim C5: over any sequence of inbound response packets and from any
initial correlation table, the dispatch loop delivers at most one packet
per transaction id: the entry is removed before delivery, so a later
packet with the same id finds no entry and is dropped. -/
theorem fanout_delivers_at_most_once (ps : List Packet) (w : Waiters) (t : Nat) :
    ((fanout w ps).2.countP (fun d => decide (d.2.transactionID = t))) ≤ 1 := by
  induction ps generalizing w with
  | nil => simp [fanout]
  | cons p rest ih =>
    cases hw : w p.transactionID with
    | none =>
      simp only [fanout, fanoutStep, hw, List.nil_append]
      exact ih _
    | some ch =>
      by_cases hpt : p.transactionID = t
      · subst hpt
        simp only [fanout, fanoutStep, hw, List.singleton_append, List.countP_cons]
        have h0 := fanout_no_waiter_no_delivery rest
          (fun u => if u = p.transactionID then none else w u) p.transactionID (by simp)
        rw [h0]
        simp
      · simp only [fanout, fanoutStep, hw, List.singleton_append, List.countP_cons]
        simp only [decide_eq_false hpt, Bool.false_eq_true, if_false, add_zero]
        exact ih _

/-- Claim C2 (code bug): the guard rejects only payloads shorter than 5
bytes, but the summary header read touches `resp.Data[5]` and needs 6
bytes; a payload of exactly 5 bytes passes the guard and the parser reads
past the buffer (a Go index-out-of-range panic), contradicting the claim
that every payload of length at least 5 is parsed without out-of-bounds
access. A 6-byte payload whose object list overruns is, as claimed,
truncated to the prior complete objects with no error. -/
theorem queryDeviceInfos_panics_on_length_5 :
    ([14, 1, 0, 0, 0] : Bytes).length = 5 ∧
    QueryDeviceInfos (.ok [14, 1, 0, 0, 0]) = .panicked ∧
    QueryDeviceInfos (.ok [14, 1, 0, 0, 2, 2, 1, 1, 65, 2, 9, 66]) =
      .ok 1 0 0 2 2 [⟨1, [65], []⟩] ∧
    QueryDeviceInfos (.ok [14, 1, 0, 0]) = .tooShort 4 := by
  decide

/-- Claim C8: the challenge response is HMAC-SHA256 keyed with the SHA-256
of the password, applied to the challenge; at the 16-zero-byte challenge
and the fixed password "password" it reproduces the independently computed
HMAC-SHA256 test vector d43535...5ba7. -/
theorem loginHash_is_hmac_sha256 :
    (∀ password challenge : Bytes,
      loginHash password challenge = hmacSha256 (sha256 password) challenge) ∧
    loginHash [112, 97, 115, 115, 119, 111, 114, 100] (List.replicate 16 0) =
      [212, 53, 53, 42, 250, 247, 166, 253, 207, 84, 119, 179, 86, 228, 155, 26,
       2, 254, 22, 22, 167, 155, 40, 66, 23, 237, 112, 157, 243, 107, 91, 167] :=
  ⟨fun _ _ => rfl, by decide⟩

/-- Claim C3 (counterexample): against an environment whose final login
response carries result code 6 — recorded in the source's own comments as
an "incorrect password" code — `Login` still returns success, so it does
not report authentication failure for non-success result codes. -/
theorem login_ok_despite_failure_code :
    Login loginFailCodeEnv [117, 115, 101, 114] [112, 97, 115, 115] = .ok () ∧
    loginFailCodeEnv.call 65 (buildPartTwoData [117, 115, 101, 114]
        (loginHash [112, 97, 115, 115] (List.replicate 16 0))) =
      .ok [37, 36, 1, 32, 6, 55] := by
  constructor
  · decide
  · decide

/-- Claim C3 (amended): `Login` succeeds exactly when the init call
succeeds with at least 18 data bytes and the challenge-response call
succeeds — independent of the final response's result code, which is
never examined. -/
theorem login_success_iff_calls_succeed (env : FnEnv) (username password : Bytes) :
    Login env username password = .ok () ↔
    ∃ d, env.call 65 loginInitRequestData = .ok d ∧ 18 ≤ d.length ∧
      ∃ e, env.call 65 (buildPartTwoData username
        (loginHash password ((d.drop 2).take 16))) = .ok e := by
  constructor
  · intro h
    cases hc : env.call 65 loginInitRequestData with
    | error u => simp [Login, hc] at h
    | ok d =>
      simp only [Login, hc] at h
      split at h
      · exact absurd h (by simp)
      · rename_i hlen
        cases hc2 : env.call 65 (buildPartTwoData username
            (loginHash password ((d.drop 2).take 16))) with
        | error u => rw [hc2] at h; exact absurd h (by simp)
        | ok e => exact ⟨d, rfl, by omega, e, hc2⟩
  · rintro ⟨d, hd, hlen, e, he⟩
    simp only [Login, hd]
    rw [if_neg (by omega)]
    rw [he]

/-- Helper: the default scalar tag "1" parses to the rational 1. -/
theorem parseScalarQ_one : parseScalarQ [49] = some 1 := by
  have hsplit : List.splitOn 46 ([49] : Bytes) = [[49]] := rfl
  simp [parseScalarQ, hsplit, parseDigits]

/-- Helper: the scalar tag "10" parses to the rational 10. -/
theorem parseScalarQ_ten : parseScalarQ [49, 48] = some 10 := by
  have hsplit : List.splitOn 46 ([49, 48] : Bytes) = [[49, 48]] := rfl
  simp [parseScalarQ, hsplit, parseDigits]

/-- Helper: Go truncation of the rational 1 is the integer 1. -/
theorem truncQ_one : truncQ 1 = 1 := by
  rw [truncQ, if_pos (by norm_num)]
  exact Int.floor_one

/-- Helper: Go truncation of 1/10 is 0 — the heart of the integer-field
scaling defect. -/
theorem truncQ_tenth : truncQ ((10 : Rat))⁻¹ = 0 := by
  rw [truncQ, if_pos (by norm_num)]
  rw [Int.floor_eq_zero_iff]
  constructor <;> norm_num

/-- Helper: a field without a `modbus_addr` tag is skipped unchanged. -/
theorem processField_untagged (env : FnEnv) (f : StructField)
    (h : f.tagAddr = []) : processField env f = .ok f := by
  simp only [processField, if_pos h]

/-- Claim C1 (counterexample): for the engine's integer-typed output path,
a schema entry with scale 10 and raw register value 100 is decoded to 0,
not to the claimed 100 / 10 = 10: the code multiplies by
`int64(1.0/scale)`, which truncates to zero for any scale above 1. -/
theorem processField_int_scale_counterexample :
    processField sampleEnv intScaledField =
      .ok { intScaledField with val := .vInt 0 } ∧
    ¬ processField sampleEnv intScaledField =
      .ok { intScaledField with val := .vInt 10 } := by
  have h1 : processField sampleEnv intScaledField =
      .ok { intScaledField with val := .vInt 0 } := by
    simp [processField, intScaledField, parseScalarQ_ten, parseUint16, parseDigits,
          numTypeByName, ReadHoldingRegisterNum, ReadHoldingRegistersU16, decodeNum,
          beNat, toSigned, castNumToInt64, intWrap64, sampleEnv, numTypeSize, truncQ_tenth]
  refine ⟨h1, ?_⟩
  rw [h1]
  decide

/-- Claim C1 (amended): the scale law `decoded = v / s` holds for
float-typed output fields (whose values the engine multiplies by the exact
reciprocal of the scale) and for the `readI16Scaled` helper; for integer-
and unsigned-typed output fields the engine instead multiplies the raw
value by the integer truncation of `1/s`, so they receive the raw value
unchanged exactly in the default no-scale case `s = 1` (and are zeroed
whenever `s > 1`). -/
theorem registerDecode_scale_law :
    (∀ (env : FnEnv) (f : StructField) (s0 : Rat) (addr : Nat) (nt : NumType) (v : NumVal),
      f.kind = .float →
      parseScalarQ (if f.tagScalar = [] then [49] else f.tagScalar) = some s0 →
      parseUint16 f.tagAddr = some addr →
      numTypeByName (if f.tagType = [] then f.typeName else f.tagType) = some nt →
      (ReadHoldingRegisterNum env nt addr).2 = .ok v →
      processField env f = .ok { f with val := .vFloat (castNumToQ v / s0) }) ∧
    (∀ (env : FnEnv) (f : StructField) (addr : Nat) (nt : NumType) (v : NumVal),
      f.kind = .int →
      f.tagScalar = [] →
      parseUint16 f.tagAddr = some addr →
      numTypeByName (if f.tagType = [] then f.typeName else f.tagType) = some nt →
      (ReadHoldingRegisterNum env nt addr).2 = .ok v →
      processField env f = .ok { f with val := .vInt (intWrap64 (castNumToInt64 v)) }) ∧
    (∀ (env : FnEnv) (f : StructField) (addr : Nat) (nt : NumType) (v : NumVal),
      f.kind = .uint →
      f.tagScalar = [] →
      parseUint16 f.tagAddr = some addr →
      numTypeByName (if f.tagType = [] then f.typeName else f.tagType) = some nt →
      (ReadHoldingRegisterNum env nt addr).2 = .ok v →
      processField env f =
        .ok { f with val := .vUint (castNumToUint64 v % 18446744073709551616) }) ∧
    (∀ (b : Bytes) (gain : Nat), 2 ≤ b.length →
      readI16Scaled (.ok b) gain =
        .ok (((toSigned 16 (beNat (b.take 2))) : Rat) / (gain : Rat))) := by
  have hne : ∀ (f : StructField) (addr : Nat),
      parseUint16 f.tagAddr = some addr → ¬ f.tagAddr = [] := by
    intro f addr haddr h0
    rw [h0] at haddr
    simp [parseUint16, parseDigits] at haddr
  refine ⟨?_, ?_, ?_, ?_⟩
  · intro env f s0 addr nt v hkind hscal haddr hnt hread
    simp only [processField, if_neg (hne f addr haddr), hscal, haddr, hkind, hnt, hread]
    rw [mul_one_div]
  · intro env f addr nt v hkind hdef haddr hnt hread
    have hscal1 : (if f.tagScalar = [] then ([49] : Bytes) else f.tagScalar) = [49] := by
      rw [hdef]
      rfl
    simp only [processField, if_neg (hne f addr haddr), hscal1, parseScalarQ_one,
               haddr, hkind, hnt, hread, div_one, truncQ_one, mul_one]
  · intro env f addr nt v hkind hdef haddr hnt hread
    have hscal1 : (if f.tagScalar = [] then ([49] : Bytes) else f.tagScalar) = [49] := by
      rw [hdef]
      rfl
    simp only [processField, if_neg (hne f addr haddr), hscal1, parseScalarQ_one,
               haddr, hkind, hnt, hread, div_one, truncQ_one, Int.toNat_one, mul_one]
  · intro b gain hlen
    rw [readI16Scaled, if_neg (by omega)]

/-- Witness for claim C1 (amended): the `InternalTemperature`-shaped float
field with scale 10 and raw register value 100 decodes to 100 / 10, and
`readI16Scaled` reproduces the signed value over the gain. -/
theorem registerDecode_scale_law_witness :
    parseScalarQ [49, 48] = some 10 ∧
    parseUint16 [51, 50, 48, 56, 55] = some 32087 ∧
    numTypeByName [105, 49, 54] = some NumType.i16 ∧
    (ReadHoldingRegisterNum sampleEnv .i16 32087).2 = .ok (.ofInt 100) ∧
    processField sampleEnv floatScaledField =
      .ok { floatScaledField with val := .vFloat (castNumToQ (.ofInt 100) / 10) } ∧
    2 ≤ ([0, 100] : Bytes).length ∧
    readI16Scaled (.ok [0, 100]) 10 =
      .ok (((toSigned 16 (beNat (([0, 100] : Bytes).take 2))) : Rat) / ((10 : Nat) : Rat)) := by
  have h1 := parseScalarQ_ten
  have h2 : parseUint16 [51, 50, 48, 56, 55] = some 32087 := by decide
  have h3 : numTypeByName [105, 49, 54] = some NumType.i16 := by decide
  have h4 : (ReadHoldingRegisterNum sampleEnv .i16 32087).2 = .ok (.ofInt 100) := by decide
  exact ⟨h1, h2, h3, h4,
    registerDecode_scale_law.1 sampleEnv floatScaledField 10 32087 .i16 (.ofInt 100) rfl h1 h2 h3 h4,
    by decide,
    registerDecode_scale_law.2.2.2 [0, 100] 10 (by decide)⟩

/-- Claim C9: a successful `QueryStructRegisters` writes only fields that
carry a `modbus_addr` tag; every untagged field keeps exactly its prior
value (and the record keeps its shape). -/
theorem queryStructRegisters_skips_untagged
    (env : FnEnv) (fields result : List StructField)
    (hok : QueryStructRegisters env fields = .ok result) :
    result.length = fields.length ∧
    ∀ (i : Nat) (f0 : StructField), fields[i]? = some f0 → f0.tagAddr = [] →
      result[i]? = some f0 := by
  induction fields generalizing result with
  | nil =>
    simp only [QueryStructRegisters, Except.ok.injEq] at hok
    subst hok
    exact ⟨rfl, by intro i f0 h _; simp at h⟩
  | cons f rest ih =>
    simp only [QueryStructRegisters] at hok
    cases hp : processField env f with
    | error e => rw [hp] at hok; exact absurd hok (by simp)
    | ok f2 =>
      rw [hp] at hok
      cases hq : QueryStructRegisters env rest with
      | error e => rw [hq] at hok; exact absurd hok (by simp)
      | ok rest2 =>
        rw [hq] at hok
        simp only [Except.ok.injEq] at hok
        subst hok
        obtain ⟨ihlen, ihget⟩ := ih rest2 hq
        constructor
        · simp [ihlen]
        · intro i f0 hget htag
          cases i with
          | zero =>
            simp only [List.getElem?_cons_zero, Option.some.injEq] at hget
            subst hget
            have := processField_untagged env f htag
            rw [this] at hp
            simp only [Except.ok.injEq] at hp
            simp [hp]
          | succ n =>
            simp only [List.getElem?_cons_succ] at hget ⊢
            exact ihget n f0 hget htag

/-- Witness for claim C9: a record of an untagged `Timestamp`-like field
followed by a tagged float field; after a successful query the untagged
field is unchanged. -/
theorem queryStructRegisters_skips_untagged_witness :
    QueryStructRegisters sampleEnv [tsField, floatScaledField] =
      .ok [tsField, { floatScaledField with val := .vFloat 10 }] ∧
    ([tsField, floatScaledField][0]? = some tsField) ∧
    tsField.tagAddr = [] ∧
    ([tsField, { floatScaledField with val := .vFloat 10 }][0]? = some tsField) := by
  have hf : processField sampleEnv floatScaledField =
      .ok { floatScaledField with val := .vFloat 10 } := by
    simp [processField, floatScaledField, parseScalarQ_ten, parseUint16, parseDigits,
          numTypeByName, ReadHoldingRegisterNum, ReadHoldingRegistersU16, decodeNum,
          beNat, toSigned, castNumToQ, sampleEnv, numTypeSize]
    norm_num
  have hok : QueryStructRegisters sampleEnv [tsField, floatScaledField] =
      .ok [tsField, { floatScaledField with val := .vFloat 10 }] := by
    simp only [QueryStructRegisters, processField_untagged sampleEnv tsField rfl, hf]
  exact ⟨hok, rfl, rfl,
    (queryStructRegisters_skips_untagged sampleEnv _ _ hok).2 0 tsField rfl rfl⟩

/-- Helper: after dropping leading zeros, the head is never zero. -/
theorem dropWhileZero_head (ys : Bytes) :
    ((ys.dropWhile (fun b => b == 0)).head?) ≠ some 0 := by
  induction ys with
  | nil => simp
  | cons y ys ih =>
    by_cases hy : y = 0
    · simpa [List.dropWhile_cons, hy] using ih
    · simp [List.dropWhile_cons, hy]

/-- Helper: a trimmed byte string never ends in a NUL byte. -/
theorem trimTrailingZeros_getLast (l : Bytes) :
    (trimTrailingZeros l).getLast? ≠ some 0 := by
  simp only [trimTrailingZeros, List.getLast?_reverse]
  exact dropWhileZero_head _

/-- Helper: whenever `ReadHoldingRegistersU16` succeeds it issued exactly
one function-code-3 request carrying the big-endian address and quantity. -/
theorem readHoldingRegistersU16_ok_requests
    (env : FnEnv) (address quantity : Nat) (vals : Bytes)
    (hok : (ReadHoldingRegistersU16 env address quantity).result = .ok vals) :
    (ReadHoldingRegistersU16 env address quantity).requests =
      [(3, beBytes2 address ++ beBytes2 quantity)] := by
  simp only [ReadHoldingRegistersU16] at hok ⊢
  split at hok
  · exact absurd hok (by simp)
  · rename_i hrange
    rw [if_neg hrange]
    cases hcall : env.call 3 (beBytes2 address ++ beBytes2 quantity) with
    | error e => simp [hcall] at hok
    | ok respData => rfl

/-- Claim C4 (counterexample): for declared length 1, the claim predicts a
read of `1+1 = 2` register-words, but the code requests only 1 register
(it reads `N+1` bytes, not `N+1` registers): the single issued request
carries quantity 1, not 2. -/
theorem readHoldingRegisterString_register_count_counterexample :
    (ReadHoldingRegisterString sampleEnv 7 1).1 = [(3, [0, 7, 0, 1])] ∧
    ¬ (ReadHoldingRegisterString sampleEnv 7 1).1 = [(3, [0, 7, 0, 2])] := by
  decide

/-- Claim C4 (amended): for declared length `N`, `ReadHoldingRegisterString`
issues one read of `⌈(N+1)/2⌉` register-words (i.e. `N+1` bytes plus
rounding, not `N+1` register-words), keeps the first `N` delivered bytes
as the payload (not `2N`), and strips every trailing NUL, so the returned
string never ends in a 0x00 byte. -/
theorem readHoldingRegisterString_reads_and_trims
    (env : FnEnv) (address size : Nat) (s : Bytes)
    (hok : (ReadHoldingRegisterString env address size).2 = .ok s) :
    (ReadHoldingRegisterString env address size).1 =
      [(3, beBytes2 address ++ beBytes2 ((size + 2) / 2))] ∧
    (∃ raw, (ReadHoldingRegistersU16 env address ((size + 2) / 2)).result = .ok raw ∧
      s = trimTrailingZeros ((raw.take (size + 1)).take size)) ∧
    s.getLast? ≠ some 0 := by
  have harith : (size + 1) * 1 + 1 = size + 2 := by omega
  simp only [ReadHoldingRegisterString, ReadHoldingRegisterBytes, harith] at hok ⊢
  by_cases hq : (size + 2) / 2 > 125
  · simp only [if_pos hq] at hok
    simp at hok
  · simp only [if_neg hq] at hok ⊢
    cases hr : (ReadHoldingRegistersU16 env address ((size + 2) / 2)).result with
    | error e =>
      rw [hr] at hok
      simp at hok
    | ok raw =>
      rw [hr] at hok
      simp only [Except.ok.injEq] at hok
      subst hok
      exact ⟨readHoldingRegistersU16_ok_requests env address _ raw hr,
        ⟨raw, rfl, rfl⟩, trimTrailingZeros_getLast _⟩

/-- Witness for claim C4 (amended): declared length 1 against an
environment delivering register bytes `{65, 0}`: one single-register
request, payload the first byte, NUL stripped. -/
theorem readHoldingRegisterString_reads_and_trims_witness :
    (ReadHoldingRegisterString strEnv 7 1).2 = .ok [65] ∧
    ((ReadHoldingRegisterString strEnv 7 1).1 =
       [(3, beBytes2 7 ++ beBytes2 ((1 + 2) / 2))] ∧
     (∃ raw, (ReadHoldingRegistersU16 strEnv 7 ((1 + 2) / 2)).result = .ok raw ∧
       ([65] : Bytes) = trimTrailingZeros ((raw.take (1 + 1)).take 1)) ∧
     ([65] : Bytes).getLast? ≠ some 0) :=
  ⟨by decide, readHoldingRegisterString_reads_and_trims strEnv 7 1 [65] (by decide)⟩
